import Mathlib

/-!
Verification of the star-count synchronization script (dev/scripts/update-stars.js).

The script reads one JSON descriptor per project folder, queries the GitHub
GraphQL API in batches of 50 for each repository star count, and rewrites a
descriptor file only when the fetched count differs from the stored one.

The embedding below follows the JavaScript source closely:
JSON records are association lists of string keys and JSON values, the
network and the filesystem are oracles passed in as explicit data, and
JavaScript strict equality between the stored stars value and the fetched
count (a number or undefined) is modelled by jsEqNum.
-/

namespace StarSync

mutual
/-- JSON values as produced by JSON.parse: the descriptor files hold one
object each, with arbitrary nesting allowed in the opaque fields. -/
inductive Json where
  | null : Json
  | bool : Bool → Json
  | num : Int → Json
  | str : String → Json
  | arr : JsonList → Json
  | obj : JsonObj → Json

/-- The element list of a JSON array. -/
inductive JsonList where
  | nil : JsonList
  | cons : Json → JsonList → JsonList

/-- The field list of a JSON object, in insertion order. -/
inductive JsonObj where
  | nil : JsonObj
  | cons : String → Json → JsonObj → JsonObj
end

/-- Builds a JSON object field list from a plain list of pairs. -/
def objOf : List (String × Json) → JsonObj
  | [] => JsonObj.nil
  | (k, v) :: rest => JsonObj.cons k v (objOf rest)

/-- Property lookup on a parsed JSON object (JS: data[k]); JSON.parse keeps
the last duplicate, so records reaching the script have unique keys and
first-match lookup agrees with JS. Returns none for an absent key,
modelling the JS value undefined. -/
def lookupJ (k : String) : JsonObj → Option Json
  | JsonObj.nil => none
  | JsonObj.cons k2 v rest => if k2 = k then some v else lookupJ k rest

/-- Property assignment on a parsed JSON object (JS: data[k] = v): an
existing key keeps its position in the record, a new key is appended at
the end, exactly as JS property update and insertion order work. -/
def setKey : JsonObj → String → Json → JsonObj
  | JsonObj.nil, k, v => JsonObj.cons k v JsonObj.nil
  | JsonObj.cons k2 v2 rest, k, v =>
      if k2 = k then JsonObj.cons k v rest
      else JsonObj.cons k2 v2 (setKey rest k v)

/-- Removing a key from a record: models a property whose value was set to
undefined being dropped by JSON.stringify, with all other keys keeping
their order. -/
def eraseKey (k : String) : JsonObj → JsonObj
  | JsonObj.nil => JsonObj.nil
  | JsonObj.cons k2 v rest =>
      if k2 = k then eraseKey k rest else JsonObj.cons k2 v (eraseKey k rest)

/-- JS strict equality data.stars === fetched, where the left side is the
arbitrary JSON value stored under the stars key (absent = undefined) and
the right side is the fetched count: a number, or undefined when the
batch result array has no entry at this position. Only number-to-number
comparisons with equal value, and undefined-to-undefined, are true. -/
def jsEqNum (stored : Option Json) (fetched : Option Int) : Bool :=
  match stored, fetched with
  | none, none => true
  | some (Json.num m), some n => m == n
  | _, _ => false

-- ── JSON.stringify(value, null, 2) ───────────────────────────────────────

/-- Lowercase hexadecimal digit, as used by the JSON escape \u00XX. -/
def hexDigit (n : Nat) : Char :=
  if n < 10 then Char.ofNat (48 + n) else Char.ofNat (87 + n)

/-- JSON string escaping as performed by JSON.stringify on one character. -/
def escChar (c : Char) : String :=
  if c = '"' then "\\\""
  else if c = '\\' then "\\\\"
  else if c = '\n' then "\\n"
  else if c = '\r' then "\\r"
  else if c = '\t' then "\\t"
  else if c.toNat = 8 then "\\b"
  else if c.toNat = 12 then "\\f"
  else if c.toNat < 32 then
    "\\u00" ++ String.mk [hexDigit (c.toNat / 16), hexDigit (c.toNat % 16)]
  else String.mk [c]

/-- JSON string escaping over a whole string. -/
def escapeStr (s : String) : String :=
  String.join (s.toList.map escChar)

/-- A JSON string literal with its surrounding quotes. -/
def quoteStr (s : String) : String := "\"" ++ escapeStr s ++ "\""

/-- The indentation JSON.stringify(v, null, 2) puts at nesting depth d. -/
def indentOf (d : Nat) : String := String.mk (List.replicate (2 * d) ' ')

mutual
/-- JSON.stringify(v, null, 2) at nesting depth d. -/
def strJson (d : Nat) : Json → String
  | Json.null => "null"
  | Json.bool b => cond b "true" "false"
  | Json.num n => toString n
  | Json.str s => quoteStr s
  | Json.arr JsonList.nil => "[]"
  | Json.arr xs => "[\n" ++ strItems (d + 1) xs ++ "\n" ++ indentOf d ++ "]"
  | Json.obj JsonObj.nil => "\x7b\x7d"
  | Json.obj kvs => "\x7b\n" ++ strFields (d + 1) kvs ++ "\n" ++ indentOf d ++ "\x7d"

/-- The comma-and-newline separated element lines of a non-empty array. -/
def strItems (d : Nat) : JsonList → String
  | JsonList.nil => ""
  | JsonList.cons x JsonList.nil => indentOf d ++ strJson d x
  | JsonList.cons x rest => indentOf d ++ strJson d x ++ ",\n" ++ strItems d rest

/-- The comma-and-newline separated field lines of a non-empty object. -/
def strFields (d : Nat) : JsonObj → String
  | JsonObj.nil => ""
  | JsonObj.cons k v JsonObj.nil => indentOf d ++ quoteStr k ++ ": " ++ strJson d v
  | JsonObj.cons k v rest =>
      indentOf d ++ quoteStr k ++ ": " ++ strJson d v ++ ",\n" ++ strFields d rest
end

/-- JSON.stringify(v, null, 2). -/
def jsonStringify (j : Json) : String := strJson 0 j

-- ── fetchStarCounts (update-stars.js lines 23-72) ────────────────────────

/-- JS repo.url.replace(pat, "") for a plain string pattern: remove the
first occurrence of the pattern, leave the string unchanged when the
pattern does not occur. -/
def replaceFirstAux (pat : List Char) : List Char → List Char
  | [] => []
  | c :: cs =>
      if pat.isPrefixOf (c :: cs) then (c :: cs).drop pat.length
      else c :: replaceFirstAux pat cs

/-- String form of replaceFirstAux. -/
def replaceFirstStr (s pat : String) : String :=
  String.mk (replaceFirstAux pat.toList s.toList)

/-- repo.url.replace("https:\x2f\x2fgithub.com\x2f", "") from line 28. -/
def stripHost (url : String) : String :=
  replaceFirstStr url "https://github.com/"

/-- JS String.split with a one-character separator, on the character list:
an empty string yields one empty part, a trailing separator yields a
trailing empty part, and acc accumulates the current part reversed. -/
def splitCharAux (sep : Char) : List Char → List Char → List String
  | [], acc => [String.mk acc.reverse]
  | c :: cs, acc =>
      if c = sep then String.mk acc.reverse :: splitCharAux sep cs []
      else splitCharAux sep cs (c :: acc)

/-- JS s.split(sep) for a one-character separator string. -/
def splitChar (sep : Char) (s : String) : List String :=
  splitCharAux sep s.toList []

/-- The parts array of line 28: strip the host prefix, split on the slash. -/
def partsOf (url : String) : List String := splitChar '/' (stripHost url)

/-- Lines 28-31: the GraphQL sub-query for the repository at original
batch index idx, or none when the URL does not split into exactly two
parts (the descriptor is then excluded from the composite query). -/
def queryFor (idx : Nat) (url : String) : Option String :=
  match partsOf url with
  | [owner, name] =>
      some ("repo" ++ toString idx ++ ": repository(owner: \"" ++ owner
        ++ "\", name: \"" ++ name ++ "\") \x7b stargazerCount \x7d")
  | _ => none

/-- Lines 27-32: map each repository to its sub-query and filter out the
nulls; the alias index is the original batch position, not the filtered
position. -/
def buildQueries (urls : List String) : List String :=
  urls.enum.filterMap fun p => queryFor p.1 p.2

/-- Reading repo.url: the github_repo value of the descriptor record. A
missing key or a non-string value makes the JS expression
repo.url.replace(...) throw a TypeError, which rejects the whole batch
promise. -/
def jsUrl : Option Json → Except String String
  | some (Json.str s) => Except.ok s
  | _ => Except.error "TypeError: repo.url.replace is not a function"

/-- The url extraction mapped over the batch, stopping at the first
throwing element like the JS callback does. -/
def jsUrls : List (Option Json) → Except String (List String)
  | [] => Except.ok []
  | v :: rest =>
    match jsUrl v with
    | Except.error e => Except.error e
    | Except.ok u =>
      match jsUrls rest with
      | Except.error e => Except.error e
      | Except.ok us => Except.ok (u :: us)

/-- The outcome of the single HTTPS POST a batch performs: either the
fetch rejects or the response status is not ok (both throw in the
source), or a response arrives and data gives, for each original batch
index i, the value of result.data at alias repo-i, as stargazerCount. -/
inductive HttpOutcome where
  | fail (msg : String)
  | resp (data : Nat → Option Int)

/-- fetchStarCounts, lines 23-72. The repoUrls list holds the github_repo
value of each descriptor of the batch in order. Returns the starCounts
array, or the thrown error. Note line 34-36: when every URL of the batch
is filtered out the function returns an empty array without issuing any
HTTP request, so in that case no position of the batch gets a result. -/
def fetchStarCounts (repoUrls : List (Option Json)) (http : HttpOutcome) :
    Except String (List Int) :=
  match jsUrls repoUrls with
  | Except.error e => Except.error e
  | Except.ok urls =>
    let queries := buildQueries urls
    if queries.length = 0 then Except.ok []
    else
      match http with
      | HttpOutcome.fail msg => Except.error ("GitHub API error: " ++ msg)
      | HttpOutcome.resp data =>
          Except.ok ((List.range repoUrls.length).map fun i => (data i).getD 0)

-- ── main: per-descriptor write (lines 119-131) ───────────────────────────

/-- One loaded descriptor: the folder slug, the path of its project.json,
and the parsed record. -/
structure Proj where
  folder : String
  path : String
  data : JsonObj

/-- The stored stars value of a record (JS: data.stars, absent = undefined). -/
def starsOf (rec : JsonObj) : Option Json := lookupJ "stars" rec

/-- The record after the assignment of the fetched value to data.stars, as
JSON.stringify sees it: assigning a number replaces the stars value in
place (or appends the key), assigning undefined makes JSON.stringify
drop the key. -/
def setStars (rec : JsonObj) (fetched : Option Int) : JsonObj :=
  match fetched with
  | some n => setKey rec "stars" (Json.num n)
  | none => eraseKey "stars" rec

/-- Lines 123-127: the write performed for one descriptor of a successful
batch, as the pair of path and file content, or none when the stored
stars strictly equal the fetched value and the file is left alone.
fetched is the batch result at position j, which is undefined when j is
out of range of the returned array. -/
def descWrite (p : Proj) (fetched : Option Int) : Option (String × String) :=
  if jsEqNum (starsOf p.data) fetched then none
  else some (p.path, jsonStringify (Json.obj (setStars p.data fetched)) ++ "\n")

/-- The record stored on disk once one successful batch handled the
descriptor: the rewritten record when a write happened, the untouched
one otherwise. A second run re-reads exactly this record. -/
def newRecord (rec : JsonObj) (fetched : Option Int) : JsonObj :=
  if jsEqNum (starsOf rec) fetched then rec else setStars rec fetched

/-- The repositories array of line 113, reduced to the urls the query
builder consumes (the slug field is never read by fetchStarCounts). -/
def reposOf (batch : List Proj) : List (Option Json) :=
  batch.map fun p => lookupJ "github_repo" p.data

/-- Lines 115-135: one iteration of the batch loop. A thrown batch error
is caught and only logged, so a failed batch produces no writes; a
successful batch walks its descriptors in order and writes those whose
stored stars differ from the batch result at their position. -/
def processBatch (batch : List Proj) (http : HttpOutcome) :
    List (String × String) :=
  match fetchStarCounts (reposOf batch) http with
  | Except.error _ => []
  | Except.ok starCounts =>
      batch.enum.filterMap fun p => descWrite p.2 (starCounts.get? p.1)

-- ── batch partition (lines 105-109) ──────────────────────────────────────

/-- The batch loop of line 108 slices the project list into contiguous
pieces of 50: slice(i, i + 50) for i = 0, 50, 100, ... The fuel argument
makes the recursion structural; batchify passes the list length, which
bounds the number of batches, so the fuel never runs out. -/
def batchifyFuel : Nat → List Proj → List (List Proj)
  | 0, _ => []
  | _, [] => []
  | fuel + 1, a :: rest => ((a :: rest).take 50) :: batchifyFuel fuel (rest.drop 49)

/-- The list of batches the orchestrator iterates over. -/
def batchify (l : List Proj) : List (List Proj) := batchifyFuel l.length l

-- ── directory scan and sort (lines 79-93) ────────────────────────────────

/-- Lexicographic comparison of character lists by character code. The JS
default Array sort comparator converts elements to strings and compares
them by UTF-16 code units; on the code points below 0x10000 that order
coincides with this one. -/
def charListLe : List Char → List Char → Bool
  | [], _ => true
  | _ :: _, [] => false
  | c :: cs, d :: ds =>
      if c.toNat < d.toNat then true
      else if d.toNat < c.toNat then false
      else charListLe cs ds

/-- Code-unit comparison of strings, the order of the default JS sort. -/
def strLe (s t : String) : Bool := charListLe s.toList t.toList

/-- Modelled from the spec: the case-insensitive comparison the Directory
Scanner contract of section 4.1 describes; the source (line 93) instead
calls the default sort, which is the case-sensitive strLe. -/
def ciLe (s t : String) : Bool :=
  charListLe (s.toList.map Char.toLower) (t.toList.map Char.toLower)

/-- Stable insertion of x into a sorted list: x lands before the first
element it is less-or-equal to, hence before equal elements coming later
in the input. -/
def insertSorted (le : String → String → Bool) (x : String) :
    List String → List String
  | [] => [x]
  | y :: ys => if le x y then x :: y :: ys else y :: insertSorted le x ys

/-- Stable insertion sort with the given comparison. -/
def sortStrings (le : String → String → Bool) (l : List String) : List String :=
  l.foldr (insertSorted le) []

/-- folders.sort() of line 93: the default JS sort compares strings by
code units; since equal keys here are identical strings, any stable or
unstable sort with that comparator returns this list. -/
def jsSort (l : List String) : List String := sortStrings strLe l

/-- Modelled from the spec: the case-insensitive-stable sorted order the
Directory Scanner contract of section 4.1 claims. -/
def ciSort (l : List String) : List String := sortStrings ciLe l

/-- Adjacent-pairs sortedness check for a string list. -/
def sortedByB (le : String → String → Bool) : List String → Bool
  | [] => true
  | [_] => true
  | x :: y :: rest => le x y && sortedByB le (y :: rest)

/-- Lines 81-83: the names of the immediate subdirectory entries of the
projects directory, in readdir order; an entry carries whether statSync
reports a directory. -/
def dirNames (entries : List (String × Bool)) : List String :=
  (entries.filter fun e => e.2).map fun e => e.1

/-- The slug sequence the script iterates over: filter to directories
(lines 81-83), then sort (line 93). -/
def scanDirs (entries : List (String × Bool)) : List String :=
  jsSort (dirNames entries)

-- ── orchestration (lines 76-149) ─────────────────────────────────────────

/-- The batch loop from batch number k on: each iteration processes its
batch with its own HTTP outcome; a caught batch error only skips that
batch (lines 132-135). The write events of the whole run, in order. -/
def runBatchesFrom (k : Nat) (bs : List (List Proj)) (http : Nat → HttpOutcome) :
    List (String × String) :=
  match bs with
  | [] => []
  | b :: rest => processBatch b (http k) ++ runBatchesFrom (k + 1) rest http

/-- The result of readdirSync plus the statSync calls of lines 81-83:
either the whole enumeration throws (caught at line 84, fatal), or it
yields the entry names with their directory flags. -/
inductive ScanOutcome where
  | fail : ScanOutcome
  | ok (entries : List (String × Bool)) : ScanOutcome
deriving DecidableEq

/-- The ambient world of one run: the credential variable, the directory
enumeration outcome, the per-slug read-and-parse outcome of
projects slug project.json (none = the catch of lines 99-101 skips the
descriptor), and the per-batch HTTP outcome. -/
structure Env where
  token : Option String
  scan : ScanOutcome
  load : String → Option JsonObj
  http : Nat → HttpOutcome

/-- Lines 92-102: read the descriptors in sorted slug order, skipping
those whose read or parse fails, keeping slug, file path and record. -/
def loadProjects (slugs : List String) (load : String → Option JsonObj) :
    List Proj :=
  slugs.filterMap fun slug =>
    (load slug).map fun d => ⟨slug, "projects/" ++ slug ++ "/project.json", d⟩

/-- The whole script: exit 1 before any further work when the token is
missing (lines 16-19) or the directory scan throws (lines 84-87);
otherwise load, batch, fetch and write, and complete with exit 0
whatever the individual load and batch outcomes were. Returns the exit
code and the file writes in order. -/
def runScript (env : Env) : Nat × List (String × String) :=
  match env.token with
  | none => (1, [])
  | some _ =>
    match env.scan with
    | ScanOutcome.fail => (1, [])
    | ScanOutcome.ok entries =>
        (0, runBatchesFrom 0 (batchify (loadProjects (scanDirs entries) env.load))
              env.http)

/-- The per-batch write list of one run, by batch number: the writes the
batch at position m of the batch list produces under the given oracle,
empty past the end of the run. -/
def batchWrites (bs : List (List Proj)) (http : Nat → HttpOutcome) (m : Nat) :
    List (String × String) :=
  match bs.get? m with
  | some b => processBatch b (http m)
  | none => []

-- ── concrete inputs used by witnesses and counterexamples ────────────────

/-- A well-formed descriptor: valid URL, stored count 10. -/
def pFoo : Proj :=
  ⟨"foo", "projects/foo/project.json",
    objOf [("github_repo", Json.str "https://github.com/acme/foo"),
           ("stars", Json.num 10)]⟩

/-- The exact bytes written for pFoo when the fetched count is 3. -/
def fooContent : String :=
  "\x7b\n  \"github_repo\": \"https://github.com/acme/foo\",\n  \"stars\": 3\n\x7d\n"

/-- A descriptor whose github_repo does not have the owner-slash-name
shape, with a previously stored star count. -/
def pBad : Proj :=
  ⟨"oops", "projects/oops/project.json",
    objOf [("github_repo", Json.str "oops"), ("stars", Json.num 7)]⟩

/-- Two one-descriptor batches for exercising the batch loop. -/
def demoBs : List (List Proj) := [[pFoo], [pBad]]

/-- An oracle under which every batch request succeeds. -/
def demoHttpA : Nat → HttpOutcome := fun _ => HttpOutcome.resp fun _ => some 1

/-- The same oracle except that the request of batch 0 fails. -/
def demoHttpB : Nat → HttpOutcome := fun i =>
  if i = 0 then HttpOutcome.fail "ECONNRESET" else HttpOutcome.resp fun _ => some 1

-- ── record lemmas ────────────────────────────────────────────────────────

theorem lookupJ_setKey (k : String) (v : Json) :
    ∀ rec : JsonObj, lookupJ k (setKey rec k v) = some v
  | JsonObj.nil => by simp [setKey, lookupJ]
  | JsonObj.cons k2 v2 rest => by
      by_cases h : k2 = k
      · simp [setKey, h, lookupJ]
      · simp [setKey, h, lookupJ, lookupJ_setKey k v rest]

theorem lookupJ_eraseKey (k : String) :
    ∀ rec : JsonObj, lookupJ k (eraseKey k rec) = none
  | JsonObj.nil => by simp [eraseKey, lookupJ]
  | JsonObj.cons k2 v rest => by
      by_cases h : k2 = k
      · simp [eraseKey, h, lookupJ_eraseKey k rest]
      · simp [eraseKey, h, lookupJ, lookupJ_eraseKey k rest]

theorem eraseKey_setKey (k : String) (v : Json) :
    ∀ rec : JsonObj, eraseKey k (setKey rec k v) = eraseKey k rec
  | JsonObj.nil => by simp [setKey, eraseKey]
  | JsonObj.cons k2 v2 rest => by
      by_cases h : k2 = k
      · simp [setKey, h, eraseKey]
      · simp [setKey, h, eraseKey, eraseKey_setKey k v rest]

theorem eraseKey_idem (k : String) :
    ∀ rec : JsonObj, eraseKey k (eraseKey k rec) = eraseKey k rec
  | JsonObj.nil => by simp [eraseKey]
  | JsonObj.cons k2 v rest => by
      by_cases h : k2 = k
      · simp [eraseKey, h, eraseKey_idem k rest]
      · simp [eraseKey, h, eraseKey_idem k rest]

/-- After the stars assignment the record holds exactly the fetched value
(and no stars key at all when the fetched value is undefined). -/
theorem starsOf_setStars (rec : JsonObj) (fetched : Option Int) :
    starsOf (setStars rec fetched) = fetched.map Json.num := by
  cases fetched with
  | none => simp [setStars, starsOf, lookupJ_eraseKey]
  | some n => simp [setStars, starsOf, lookupJ_setKey]

/-- The stars assignment leaves every other field, and their order,
untouched. -/
theorem eraseKey_setStars (rec : JsonObj) (fetched : Option Int) :
    eraseKey "stars" (setStars rec fetched) = eraseKey "stars" rec := by
  cases fetched with
  | none => simp [setStars, eraseKey_idem]
  | some n => simp [setStars, eraseKey_setKey]

/-- JS strict equality holds between a freshly assigned stars value and
the fetched value it came from. -/
theorem jsEqNum_map_num (fetched : Option Int) :
    jsEqNum (fetched.map Json.num) fetched = true := by
  cases fetched with
  | none => rfl
  | some n => simp [jsEqNum]

-- ── batch partition lemmas ───────────────────────────────────────────────

theorem batchifyFuel_join : ∀ (fuel : Nat) (l : List Proj), l.length ≤ fuel →
    (batchifyFuel fuel l).flatten = l
  | 0, l, h => by
      have hl : l = [] := List.eq_nil_of_length_eq_zero (Nat.le_zero.mp h)
      subst hl; rfl
  | _ + 1, [], _ => rfl
  | fuel + 1, a :: rest, h => by
      have h2 : rest.length ≤ fuel := by
        simp only [List.length_cons] at h; omega
      have hlen : (rest.drop 49).length ≤ fuel := by
        simp only [List.length_drop]; omega
      simp only [batchifyFuel, List.flatten_cons]
      rw [batchifyFuel_join fuel (rest.drop 49) hlen]
      show (a :: rest).take 50 ++ (a :: rest).drop 50 = a :: rest
      exact List.take_append_drop 50 (a :: rest)

theorem batchifyFuel_length : ∀ (fuel : Nat) (l : List Proj), l.length ≤ fuel →
    (batchifyFuel fuel l).length = (l.length + 49) / 50
  | 0, l, h => by
      have hl : l = [] := List.eq_nil_of_length_eq_zero (Nat.le_zero.mp h)
      subst hl; rfl
  | _ + 1, [], _ => rfl
  | fuel + 1, a :: rest, h => by
      have h2 : rest.length ≤ fuel := by
        simp only [List.length_cons] at h; omega
      have hlen : (rest.drop 49).length ≤ fuel := by
        simp only [List.length_drop]; omega
      simp only [batchifyFuel, List.length_cons]
      rw [batchifyFuel_length fuel (rest.drop 49) hlen]
      simp only [List.length_drop]
      omega

theorem batchifyFuel_le50 : ∀ (fuel : Nat) (l : List Proj),
    ((batchifyFuel fuel l).all fun b => decide (b.length ≤ 50)) = true
  | 0, l => by cases l <;> rfl
  | _ + 1, [] => rfl
  | fuel + 1, a :: rest => by
      simp only [batchifyFuel, List.all_cons, batchifyFuel_le50 fuel (rest.drop 49),
        Bool.and_true, decide_eq_true_eq]
      simp [List.length_take]

-- ── batch loop lemma ─────────────────────────────────────────────────────

theorem runBatchesFrom_join (http : Nat → HttpOutcome) :
    ∀ (bs : List (List Proj)) (k : Nat),
      runBatchesFrom k bs http =
        ((bs.enumFrom k).map fun p => processBatch p.2 (http p.1)).flatten
  | [], _ => rfl
  | b :: rest, k => by
      simp only [runBatchesFrom, List.enumFrom, List.map_cons, List.flatten_cons]
      rw [runBatchesFrom_join http rest (k + 1)]

-- ── sorting lemmas ───────────────────────────────────────────────────────

theorem charListLe_total : ∀ l m : List Char,
    charListLe l m = true ∨ charListLe m l = true
  | [], _ => Or.inl rfl
  | _ :: _, [] => Or.inr rfl
  | c :: cs, d :: ds => by
      rcases Nat.lt_trichotomy c.toNat d.toNat with h | h | h
      · left; simp [charListLe, h]
      · rcases charListLe_total cs ds with ih | ih
        · left; simp [charListLe, h, Nat.lt_irrefl, ih]
        · right; simp [charListLe, h.symm, Nat.lt_irrefl, ih]
      · right; simp [charListLe, h]

theorem strLe_total (s t : String) : strLe s t = true ∨ strLe t s = true :=
  charListLe_total s.toList t.toList

theorem insertSorted_perm (le : String → String → Bool) (x : String) :
    ∀ l : List String, List.Perm (insertSorted le x l) (x :: l)
  | [] => List.Perm.refl _
  | y :: ys => by
      by_cases h : le x y = true
      · simp [insertSorted, h]
      · simp only [insertSorted, h, if_false, Bool.false_eq_true]
        exact ((insertSorted_perm le x ys).cons y).trans (List.Perm.swap x y ys)

theorem sortStrings_perm (le : String → String → Bool) :
    ∀ l : List String, List.Perm (sortStrings le l) l
  | [] => List.Perm.refl _
  | a :: l =>
      (insertSorted_perm le a (sortStrings le l)).trans
        ((sortStrings_perm le l).cons a)

theorem sortedByB_insertSorted (x : String) :
    ∀ l : List String, sortedByB strLe l = true →
      sortedByB strLe (insertSorted strLe x l) = true
  | [], _ => rfl
  | [y], _ => by
      by_cases h : strLe x y = true
      · simp [insertSorted, h, sortedByB]
      · have hyx : strLe y x = true := (strLe_total x y).resolve_left h
        simp [insertSorted, h, sortedByB, hyx]
  | y :: z :: rest, hs => by
      have hyz : strLe y z = true := by
        simp only [sortedByB, Bool.and_eq_true] at hs; exact hs.1
      have hrest : sortedByB strLe (z :: rest) = true := by
        simp only [sortedByB, Bool.and_eq_true] at hs; exact hs.2
      by_cases h : strLe x y = true
      · simp [insertSorted, h, sortedByB, hyz, hrest]
      · have hyx : strLe y x = true := (strLe_total x y).resolve_left h
        have ih := sortedByB_insertSorted x (z :: rest) hrest
        by_cases h2 : strLe x z = true
        · simp [insertSorted, h, h2, sortedByB, hyx, hyz, hrest]
        · have hzi : insertSorted strLe x (z :: rest)
              = z :: insertSorted strLe x rest := by
            simp [insertSorted, h2]
          rw [hzi] at ih
          have hgoal : insertSorted strLe x (y :: z :: rest)
              = y :: z :: insertSorted strLe x rest := by
            simp [insertSorted, h, h2]
          rw [hgoal]
          simp only [sortedByB, Bool.and_eq_true]
          exact ⟨hyz, ih⟩

theorem sortStrings_sorted_strLe :
    ∀ l : List String, sortedByB strLe (sortStrings strLe l) = true
  | [] => rfl
  | a :: l => sortedByB_insertSorted a (sortStrings strLe l) (sortStrings_sorted_strLe l)

-- ── the claims ───────────────────────────────────────────────────────────

/-- C1: the claim states that the batch result is positionally aligned
with the batch and that a descriptor excluded from the composite query
still occupies its result position with value zero. The code violates
this when every URL of the batch is malformed: lines 34-36 return an
empty array without any result position, so a one-descriptor batch gets
a zero-length result instead of one position holding 0. -/
theorem c1_all_malformed_batch_loses_positions :
    fetchStarCounts [some (Json.str "oops")] (HttpOutcome.resp fun _ => some 5)
      = Except.ok []
    ∧ ([] : List Int).length ≠ [some (Json.str "oops")].length :=
  ⟨rfl, by decide⟩

/-- C2: the claim states that a descriptor with a malformed github_repo
URL resolves to the integer 0 and is rewritten with stars = 0, even when
every URL of the batch is malformed. In that last case the code instead
gets an empty result array, compares the stored stars 7 with undefined,
and rewrites the file with the stars key deleted: the written bytes hold
no stars field at all, and differ from the stars = 0 serialization the
claim requires. -/
theorem c2_all_malformed_batch_deletes_stars :
    processBatch [pBad] (HttpOutcome.resp fun _ => some 5)
      = [("projects/oops/project.json", "\x7b\n  \"github_repo\": \"oops\"\n\x7d\n")]
    ∧ starsOf (setStars pBad.data none) = none
    ∧ ("\x7b\n  \"github_repo\": \"oops\"\n\x7d\n" : String)
      ≠ jsonStringify (Json.obj (setKey pBad.data "stars" (Json.num 0))) ++ "\n" := by
  refine ⟨rfl, rfl, ?_⟩
  decide

/-- C3: within a successful batch a descriptor file is rewritten exactly
when the fetched value differs from the stored stars value under JS
strict inequality (absent stored values differ from every integer), and
a second run over the resulting record with the same fetched value
writes nothing. -/
theorem c3_write_iff_changed_and_idempotent (p : Proj) (fetched : Option Int) :
    ((descWrite p fetched).isSome = true
      ↔ jsEqNum (starsOf p.data) fetched = false)
    ∧ descWrite ⟨p.folder, p.path, newRecord p.data fetched⟩ fetched = none := by
  constructor
  · unfold descWrite
    cases h : jsEqNum (starsOf p.data) fetched <;> simp [h]
  · unfold descWrite
    cases h : jsEqNum (starsOf p.data) fetched
    · simp [newRecord, h, starsOf_setStars, jsEqNum_map_num]
    · simp [newRecord, h]

/-- C4: the orchestrator issues exactly the ceiling of N over 50 batches,
each of at most 50 descriptors, and the batches are contiguous slices
whose concatenation in order is the original descriptor list. -/
theorem c4_batch_partition (l : List Proj) :
    (batchify l).length = (l.length + 49) / 50
    ∧ ((batchify l).all fun b => decide (b.length ≤ 50)) = true
    ∧ (batchify l).flatten = l :=
  ⟨batchifyFuel_length l.length l (Nat.le_refl _),
   batchifyFuel_le50 l.length l,
   batchifyFuel_join l.length l (Nat.le_refl _)⟩

/-- C5: a rewritten descriptor file goes to the descriptor path, its
content is the 2-space pretty-printed record followed by a trailing
newline, every field other than stars keeps its value and relative
order, and the stars field of the written record is exactly the fetched
value. -/
theorem c5_rewrite_frame (p : Proj) (fetched : Option Int) (path content : String)
    (h : descWrite p fetched = some (path, content)) :
    path = p.path
    ∧ content = jsonStringify (Json.obj (setStars p.data fetched)) ++ "\n"
    ∧ eraseKey "stars" (setStars p.data fetched) = eraseKey "stars" p.data
    ∧ starsOf (setStars p.data fetched) = fetched.map Json.num := by
  unfold descWrite at h
  cases hc : jsEqNum (starsOf p.data) fetched
  · simp only [hc, Bool.false_eq_true, if_false, Option.some.injEq,
      Prod.mk.injEq] at h
    exact ⟨h.1.symm, h.2.symm, eraseKey_setStars p.data fetched,
      starsOf_setStars p.data fetched⟩
  · simp [hc] at h

/-- C5 witness: the concrete descriptor pFoo with fetched count 3 is
written to its own path with the exact expected bytes. -/
theorem c5_rewrite_frame_witness :
    "projects/foo/project.json" = pFoo.path
    ∧ fooContent = jsonStringify (Json.obj (setStars pFoo.data (some 3))) ++ "\n"
    ∧ eraseKey "stars" (setStars pFoo.data (some 3)) = eraseKey "stars" pFoo.data
    ∧ starsOf (setStars pFoo.data (some 3)) = (some (3 : Int)).map Json.num :=
  c5_rewrite_frame pFoo (some 3) "projects/foo/project.json" fooContent (by rfl)

/-- C6 counterexample: the claim states the scanner output is in
case-insensitive-stable sorted order. The source sorts with the default
comparator, which is case-sensitive code-unit order: on the directory
entries a and B the script returns B before a, while the
case-insensitive order of the claim puts a before B. -/
theorem c6_counterexample :
    scanDirs [("a", true), ("B", true)] = ["B", "a"]
    ∧ ciSort (dirNames [("a", true), ("B", true)]) = ["a", "B"]
    ∧ scanDirs [("a", true), ("B", true)]
      ≠ ciSort (dirNames [("a", true), ("B", true)]) := by
  refine ⟨rfl, rfl, ?_⟩
  decide

/-- C6 amended: the scanner returns exactly the immediate subdirectory
names, sorted lexicographically by character code (case-sensitive, so
uppercase letters order before lowercase ones). -/
theorem c6_scan_sorted_case_sensitive (entries : List (String × Bool)) :
    List.Perm (scanDirs entries) (dirNames entries)
    ∧ sortedByB strLe (scanDirs entries) = true :=
  ⟨sortStrings_perm strLe (dirNames entries),
   sortStrings_sorted_strLe (dirNames entries)⟩

/-- C7 counterexample: the claim states a descriptor is included in the
composite query exactly when its URL splits into two non-empty parts.
The source checks only that the part count is 2: the URL of the form
host slash acme slash splits into the parts acme and the empty string
and is still included in the query. -/
theorem c7_counterexample :
    (queryFor 0 "https://github.com/acme/").isSome = true
    ∧ partsOf "https://github.com/acme/" = ["acme", ""]
    ∧ ¬ (∀ s ∈ partsOf "https://github.com/acme/", s ≠ "") := by
  refine ⟨rfl, rfl, ?_⟩
  decide

/-- C7 amended: a descriptor is included in the composite query exactly
when stripping the host prefix and splitting on the slash yields exactly
two components, empty components included. -/
theorem c7_query_inclusion (idx : Nat) (url : String) :
    (queryFor idx url).isSome = true ↔ (partsOf url).length = 2 := by
  unfold queryFor
  cases h : partsOf url with
  | nil => simp
  | cons a t =>
    cases t with
    | nil => simp
    | cons b t2 =>
      cases t2 with
      | nil => simp
      | cons c t3 => simp

/-- C8: the writes of a whole run decompose batch by batch, each batch
processed with its own HTTP outcome, so the run completes over every
batch; and changing the outcome of batch k alone (for example to a
network failure) leaves the writes of every other batch unchanged. -/
theorem c8_batch_failure_is_isolated (bs : List (List Proj))
    (http : Nat → HttpOutcome) :
    runBatchesFrom 0 bs http
      = ((bs.enum).map fun p => processBatch p.2 (http p.1)).flatten
    ∧ ∀ (http2 : Nat → HttpOutcome) (k : Nat),
        (∀ i, i ≠ k → http2 i = http i) →
        ∀ m, m ≠ k → batchWrites bs http2 m = batchWrites bs http m := by
  constructor
  · show runBatchesFrom 0 bs http
      = ((bs.enumFrom 0).map fun p => processBatch p.2 (http p.1)).flatten
    exact runBatchesFrom_join http bs 0
  · intro http2 k hcong m hm
    unfold batchWrites
    cases bs.get? m with
    | none => rfl
    | some b => rw [hcong m hm]

/-- C8 witness: with two one-descriptor batches, failing the request of
batch 0 leaves the writes of batch 1 unchanged. -/
theorem c8_batch_failure_witness :
    batchWrites demoBs demoHttpB 1 = batchWrites demoBs demoHttpA 1 :=
  (c8_batch_failure_is_isolated demoBs demoHttpA).2 demoHttpB 0
    (fun i hi => by simp [demoHttpA, demoHttpB, hi]) 1 (by decide)

/-- C9: the exit code is 1 exactly when the credential is missing or the
directory scan fails, and 0 on completion whatever the per-descriptor
load outcomes and per-batch HTTP outcomes were. -/
theorem c9_exit_code (env : Env) :
    (runScript env).1
      = if env.token = none ∨ env.scan = ScanOutcome.fail then 1 else 0 := by
  obtain ⟨token, scan, load, http⟩ := env
  cases token <;> cases scan <;> simp [runScript]

/-- C10: a batch whose query raises an error performs no writes at all:
the write loop of a batch runs only after its fetch succeeded. -/
theorem c10_failed_batch_no_writes (batch : List Proj) (http : HttpOutcome)
    (e : String)
    (h : fetchStarCounts (reposOf batch) http = Except.error e) :
    processBatch batch http = [] := by
  unfold processBatch
  rw [h]

/-- C10 witness: a concrete one-descriptor batch whose HTTP request fails
writes nothing. -/
theorem c10_failed_batch_witness :
    processBatch [pFoo] (HttpOutcome.fail "HTTP 500") = [] :=
  c10_failed_batch_no_writes [pFoo] (HttpOutcome.fail "HTTP 500")
    ("GitHub API error: " ++ "HTTP 500") (by rfl)

end StarSync
